import Mathlib

/-!
Verification of the job-posting scraper in src/job_scraper.py against its
natural-language specification.  The Python code is shallowly embedded:
pure helpers become Lean functions on String / List Char, the
BeautifulSoup tree becomes an inductive Node type, the regular
expressions used by the extractors are embedded as a small backtracking
matcher whose preference order (leftmost match, greedy, alternatives
left to right) mirrors the Python re module on the patterns that occur
in the source, and the fallible orchestration code returns explicit
result types.
-/

/-! ### Python string primitives -/

/-- Whitespace as recognised by Python's str.strip and the re pattern
backslash-s on the ASCII range (the source only ever meets ASCII
whitespace): space, tab, newline, carriage return, vertical tab,
form feed. -/
def pySpace (c : Char) : Bool :=
  c = ' ' || c = '\t' || c = '\n' || c = '\r' || c = '\x0b' || c = '\x0c'

/-- Python str.lower on the ASCII letters (all literals in the source
are ASCII). -/
def pyLowerChar (c : Char) : Char := c.toLower

/-- str.lower applied to a whole string. -/
def pyLower (s : String) : String := String.mk (s.toList.map pyLowerChar)

/-- Contiguous substring test on character lists. -/
def listContainsSub (needle : List Char) : List Char → Bool
  | [] => needle.isEmpty
  | c :: rest => needle.isPrefixOf (c :: rest) || listContainsSub needle rest

/-- Python substring test: needle in haystack. -/
def pyContains (haystack needle : String) : Bool :=
  listContainsSub needle.toList haystack.toList

/-- str.strip: drop leading and trailing whitespace. -/
def pyStrip (l : List Char) : List Char :=
  ((l.dropWhile pySpace).reverse.dropWhile pySpace).reverse

/-- re.sub of a maximal whitespace run by a single space, as a left to
right scan; the Bool records whether the previous character was part of
a whitespace run. -/
def collapseWs : Bool → List Char → List Char
  | _, [] => []
  | prevSpace, c :: rest =>
    if pySpace c then
      if prevSpace then collapseWs true rest
      else ' ' :: collapseWs true rest
    else c :: collapseWs false rest

/-- Python str.replace: non-overlapping replacement scanning left to
right.  Fuel bounds the number of scan steps; each step consumes at
least one character, so fuel equal to the input length suffices. -/
def pyReplaceFuel (pat rep : List Char) : Nat → List Char → List Char
  | 0, l => l
  | _ + 1, [] => []
  | fuel + 1, c :: rest =>
    if pat.isPrefixOf (c :: rest) ∧ pat ≠ [] then
      rep ++ pyReplaceFuel pat rep fuel (List.drop pat.length (c :: rest))
    else
      c :: pyReplaceFuel pat rep fuel rest

/-- str.replace on strings. -/
def pyReplace (s pat rep : String) : String :=
  String.mk (pyReplaceFuel pat.toList rep.toList s.toList.length s.toList)

/-- clean_text (src/job_scraper.py lines 181-193): strip, collapse
whitespace runs to single spaces, then decode the four HTML entities in
the order written in the source.  The Python guard for None or empty
input returns the empty string, which coincides with this definition on
the empty string; None is not representable for a Lean String. -/
def clean_text (text : String) : String :=
  let t := String.mk (collapseWs false (pyStrip text.toList))
  let t := pyReplace t "&nbsp;" " "
  let t := pyReplace t "&amp;" "&"
  let t := pyReplace t "&lt;" "<"
  pyReplace t "&gt;" ">"

/-! ### A small regex engine

The source uses Python re with a handful of fixed patterns.  They are
embedded as abstract syntax below; the matcher enumerates alternatives
in exactly Python's backtracking preference order (greedy repetition
longest first, alternation left branch first), and searching tries the
leftmost start position first, so the head of the result list is the
match Python reports. -/

/-- Python word character on ASCII (for word boundaries): letter,
digit or underscore. -/
def pyWordChar (c : Char) : Bool := c.isAlphanum || c = '_'

/-- Character classes occurring in the source's patterns. -/
inductive CC
  /-- backslash-d -/
  | digit
  /-- backslash-s -/
  | space
  /-- [A-Z] -/
  | upper
  /-- [A-Za-z] -/
  | alpha
  /-- [A-Za-z.+#] (the word-token class of extract_skills) -/
  | wordExtra
  /-- [^.] -/
  | notDot
  /-- [.)] (dot or closing parenthesis) -/
  | dotParen
  /-- [+-] -/
  | plusMinus
  /-- [+- backslash-s] -/
  | plusMinusSpace
  /-- [: backslash-s] -/
  | colonSpace
deriving DecidableEq

def CC.test : CC → Char → Bool
  | .digit, c => c.isDigit
  | .space, c => pySpace c
  | .upper, c => 'A' ≤ c ∧ c ≤ 'Z'
  | .alpha, c => ('A' ≤ c ∧ c ≤ 'Z') || ('a' ≤ c ∧ c ≤ 'z')
  | .wordExtra, c =>
      ('A' ≤ c ∧ c ≤ 'Z') || ('a' ≤ c ∧ c ≤ 'z') || c = '.' || c = '+' || c = '#'
  | .notDot, c => c ≠ '.'
  | .dotParen, c => c = '.' || c = ')'
  | .plusMinus, c => c = '+' || c = '-'
  | .plusMinusSpace, c => c = '+' || c = '-' || pySpace c
  | .colonSpace, c => c = ':' || pySpace c

/-- Regex abstract syntax; repetition is only ever applied to a
character class in the source's patterns, which keeps the matcher
structurally recursive. -/
inductive Re
  | eps
  | ch (c : Char)
  | cls (k : CC)
  | seq (a b : Re)
  | alt (a b : Re)
  /-- greedy k* over a class -/
  | star (k : CC)
  /-- greedy k+ over a class -/
  | rep1 (k : CC)
  /-- greedy k{n,} over a class -/
  | repAtLeast (k : CC) (n : Nat)
  /-- greedy a? -/
  | opt (a : Re)
  /-- capture group number i (Python 1-based numbering) -/
  | grp (i : Nat) (a : Re)
  /-- word boundary -/
  | wb

/-- Literal string as a sequence of literal characters. -/
def litRe : List Char → Re
  | [] => .eps
  | c :: cs => .seq (.ch c) (litRe cs)

/-- Sequence of several regexes. -/
def seqRe : List Re → Re
  | [] => .eps
  | [r] => r
  | r :: rs => .seq r (seqRe rs)

/-- One matcher state: remaining input, character just before the
remaining input (for word boundaries), captures recorded so far, most
recent first. -/
structure MRes where
  rest : List Char
  prev : Option Char
  caps : List (Nat × List Char)
deriving DecidableEq

/-- States reachable by consuming 0, 1, 2, ... characters of the class
k from the front of the input, in increasing order of consumption. -/
def runStates (k : CC) : List Char → Option Char → List (List Char × Option Char)
  | l, p =>
    (l, p) :: match l with
      | [] => []
      | c :: rest => if k.test c then runStates k rest (some c) else []

/-- Greedy split list for a class repetition with minimum count lo:
longest consumption first. -/
def ccSplits (k : CC) (lo : Nat) (l : List Char) (p : Option Char) :
    List (List Char × Option Char) :=
  ((runStates k l p).drop lo).reverse

/-- Word boundary holds between two (optional) characters when exactly
one side is a word character. -/
def wordBoundary (p : Option Char) (h : Option Char) : Bool :=
  (p.elim false pyWordChar) != (h.elim false pyWordChar)

/-- All ways a regex can match a prefix of the input, in Python's
backtracking preference order. -/
def matchRe : Re → List Char → Option Char → List (Nat × List Char) → List MRes
  | .eps, l, p, g => [⟨l, p, g⟩]
  | .ch c, l, _, g =>
    match l with
    | [] => []
    | x :: rest => if x = c then [⟨rest, some x, g⟩] else []
  | .cls k, l, _, g =>
    match l with
    | [] => []
    | x :: rest => if k.test x then [⟨rest, some x, g⟩] else []
  | .seq a b, l, p, g =>
    (matchRe a l p g).flatMap (fun r => matchRe b r.rest r.prev r.caps)
  | .alt a b, l, p, g => matchRe a l p g ++ matchRe b l p g
  | .star k, l, p, g => (ccSplits k 0 l p).map (fun s => ⟨s.1, s.2, g⟩)
  | .rep1 k, l, p, g => (ccSplits k 1 l p).map (fun s => ⟨s.1, s.2, g⟩)
  | .repAtLeast k n, l, p, g => (ccSplits k n l p).map (fun s => ⟨s.1, s.2, g⟩)
  | .opt a, l, p, g => matchRe a l p g ++ [⟨l, p, g⟩]
  | .grp i a, l, p, g =>
    (matchRe a l p g).map
      (fun r => ⟨r.rest, r.prev, (i, l.take (l.length - r.rest.length)) :: r.caps⟩)
  | .wb, l, p, g => if wordBoundary p l.head? then [⟨l, p, g⟩] else []

/-- Value of a capture group: the most recently recorded text, if the
group participated in the match. -/
def capLookup (i : Nat) : List (Nat × List Char) → Option (List Char)
  | [] => none
  | (j, v) :: rest => if j = i then some v else capLookup i rest

/-- Leftmost search: try a match at the current position, else advance
one character.  Returns the matched text and the matcher state. -/
def searchFrom (r : Re) : List Char → Option Char → Option (List Char × MRes)
  | l, p =>
    match (matchRe r l p []).head? with
    | some res => some (l.take (l.length - res.rest.length), res)
    | none =>
      match l with
      | [] => none
      | c :: rest => searchFrom r rest (some c)

/-- re.search on a whole string (ignoring captures). -/
def reSearch (r : Re) (s : String) : Bool := (searchFrom r s.toList none).isSome

/-- All successive non-overlapping matches (re.finditer / re.findall).
Each reported match of the patterns in the source is non-empty, so each
step consumes at least one character and fuel equal to the input length
plus one suffices; on a hypothetical empty match the scan advances one
character, as Python does. -/
def findAllFuel (r : Re) : Nat → List Char → Option Char → List (List Char × MRes)
  | 0, _, _ => []
  | fuel + 1, l, p =>
    match searchFrom r l p with
    | none => []
    | some (m, res) =>
      if m.isEmpty then
        (m, res) ::
          match res.rest with
          | [] => []
          | c :: rest => findAllFuel r fuel rest (some c)
      else (m, res) :: findAllFuel r fuel res.rest res.prev

/-- re.finditer over a character list. -/
def findAll (r : Re) (l : List Char) : List (List Char × MRes) :=
  findAllFuel r (l.length + 1) l none

/-! ### The experience patterns (src/job_scraper.py lines 73-79) -/

/-- (backslash-d+)[+- backslash-s]*(?:to|-)? backslash-s*(backslash-d+)?
backslash-s*years? backslash-s*(?:of backslash-s*)?experience -/
def expPat1 : Re := seqRe [
  .grp 1 (.rep1 .digit),
  .star .plusMinusSpace,
  .opt (.alt (litRe "to".toList) (.ch '-')),
  .star .space,
  .opt (.grp 2 (.rep1 .digit)),
  .star .space,
  litRe "year".toList, .opt (.ch 's'),
  .star .space,
  .opt (.seq (litRe "of".toList) (.star .space)),
  litRe "experience".toList ]

/-- experience[: backslash-s]*(backslash-d+)[+- backslash-s]*(?:to|-)?
backslash-s*(backslash-d+)? backslash-s*years? -/
def expPat2 : Re := seqRe [
  litRe "experience".toList,
  .star .colonSpace,
  .grp 1 (.rep1 .digit),
  .star .plusMinusSpace,
  .opt (.alt (litRe "to".toList) (.ch '-')),
  .star .space,
  .opt (.grp 2 (.rep1 .digit)),
  .star .space,
  litRe "year".toList, .opt (.ch 's') ]

/-- (backslash-d+)[+-] backslash-s*years? backslash-s*experience -/
def expPat3 : Re := seqRe [
  .grp 1 (.rep1 .digit),
  .cls .plusMinus,
  .star .space,
  litRe "year".toList, .opt (.ch 's'),
  .star .space,
  litRe "experience".toList ]

/-- minimum backslash-s*(backslash-d+) backslash-s*years? -/
def expPat4 : Re := seqRe [
  litRe "minimum".toList,
  .star .space,
  .grp 1 (.rep1 .digit),
  .star .space,
  litRe "year".toList, .opt (.ch 's') ]

/-- at backslash-s*least backslash-s*(backslash-d+) backslash-s*years? -/
def expPat5 : Re := seqRe [
  litRe "at".toList,
  .star .space,
  litRe "least".toList,
  .star .space,
  .grp 1 (.rep1 .digit),
  .star .space,
  litRe "year".toList, .opt (.ch 's') ]

/-- self.experience_patterns, in source order. -/
def experience_patterns : List Re := [expPat1, expPat2, expPat3, expPat4, expPat5]

/-- Python truthiness of a capture: participated and non-empty. -/
def capTruthy (o : Option (List Char)) : Bool :=
  match o with
  | none => false
  | some v => !v.isEmpty

/-- Interpolation of a capture into an f-string (a non-participating
group would print as None, exactly as Python renders it). -/
def capText (o : Option (List Char)) : String :=
  match o with
  | none => "None"
  | some v => String.mk v

/-- The per-match branch of extract_experience: if the pattern has a
second group that captured non-empty text, report a range, else if the
first group is truthy report a lower bound, else move to the next
match. -/
def expFromMatch (caps : List (Nat × List Char)) : Option String :=
  let g1 := capLookup 1 caps
  let g2 := capLookup 2 caps
  if capTruthy g2 then some (capText g1 ++ "-" ++ capText g2 ++ " years")
  else if capTruthy g1 then some (capText g1 ++ "+ years")
  else none

/-- Try each pattern in order; within a pattern take the first match
(in leftmost order) whose groups decide a result.  The re.IGNORECASE
flag in the source is a no-op because the text is lower-cased first and
every literal in the patterns is lower-case. -/
def tryExpPatterns (l : List Char) : Option String :=
  experience_patterns.findSome? (fun r =>
    (findAll r l).findSome? (fun m => expFromMatch m.2.caps))

def entry_terms : List String := ["entry level", "fresher", "graduate", "junior"]

def senior_terms : List String := ["senior", "lead", "principal", "architect"]

/-- extract_experience (src/job_scraper.py lines 195-216). -/
def extract_experience (text : String) : String :=
  let t := pyLower text
  match tryExpPatterns t.toList with
  | some r => r
  | none =>
    if entry_terms.any (fun w => pyContains t w) then "Entry Level"
    else if senior_terms.any (fun w => pyContains t w) then "Senior Level (5+ years)"
    else "Not specified"

/-! ### Skill extraction (src/job_scraper.py lines 81-91 and 218-239) -/

/-- self.skill_keywords, in source order. -/
def skill_keywords : List String := [
  "python", "java", "javascript", "react", "angular", "vue", "node.js",
  "sql", "mysql", "postgresql", "mongodb", "redis",
  "aws", "azure", "gcp", "docker", "kubernetes",
  "machine learning", "ai", "data science", "tensorflow", "pytorch",
  "html", "css", "bootstrap", "git", "linux", "windows",
  "project management", "agile", "scrum", "communication",
  "leadership", "teamwork", "problem solving", "chartered accountant",
  "audit", "accounting", "finance", "taxation", "compliance",
  "financial reporting", "excel", "tally", "sap", "quickbooks" ]

/-- (?:skills|requirements|qualifications)[: backslash-s]*([^.]*) -/
def skillSectionPat : Re := seqRe [
  .alt (litRe "skills".toList)
    (.alt (litRe "requirements".toList) (litRe "qualifications".toList)),
  .star .colonSpace,
  .grp 1 (.star .notDot) ]

/-- word-boundary [A-Za-z][A-Za-z.+#]{2,} word-boundary -/
def wordTokenPat : Re := seqRe [.wb, .cls .alpha, .repAtLeast .wordExtra 2, .wb]

structure SkillsResult where
  required_skills : List String
  additional_skills : List String
deriving DecidableEq

/-- extract_skills: vocabulary scan by substring on the lower-cased
text, then word tokens collected from the sections following
skills/requirements/qualifications.  The source passes the additional
skills through list(set(...)), whose enumeration order CPython leaves
unspecified; it is modelled with List.dedup, which likewise
deduplicates before the cut to the first 10. -/
def extract_skills (text : String) : SkillsResult :=
  let t := pyLower text
  let found := skill_keywords.filter (fun k => pyContains t (pyLower k))
  let sections := (findAll skillSectionPat t.toList).map
    (fun m => (capLookup 1 m.2.caps).getD [])
  let additional := sections.flatMap
    (fun sec => (findAll wordTokenPat sec).map (fun m => String.mk m.1))
  { required_skills := found
    additional_skills := additional.dedup.take 10 }

/-! ### The parsed-markup model (the navigable tree BeautifulSoup
produces: elements with a tag name, attributes and children, and text
nodes). -/

inductive Node
  | tag (name : String) (attrs : List (String × String)) (children : List Node)
  | text (s : String)

mutual
/-- get_text(): concatenation of every text node in the subtree, in
document order. -/
def Node.getText : Node → String
  | .text s => s
  | .tag _ _ cs => nodesText cs
/-- get_text over a list of sibling nodes. -/
def nodesText : List Node → String
  | [] => ""
  | n :: ns => Node.getText n ++ nodesText ns
end

mutual
/-- All descendants of a node in document (preorder) order, the node
itself excluded — BeautifulSoup's find/find_all/select search
descendants only. -/
def Node.descendants : Node → List Node
  | .text _ => []
  | .tag _ _ cs => descList cs
/-- Descendants over a list of sibling subtrees. -/
def descList : List Node → List Node
  | [] => []
  | n :: ns => n :: Node.descendants n ++ descList ns
end

def Node.tagName : Node → Option String
  | .tag n _ _ => some n
  | .text _ => none

def Node.attr (n : Node) (key : String) : Option String :=
  match n with
  | .text _ => none
  | .tag _ attrs _ => (attrs.find? (fun a => a.1 == key)).map (fun a => a.2)

/-- Split a character list on whitespace into its non-empty words; the
accumulator holds the current word reversed. -/
def splitWsAux : List Char → List Char → List String
  | acc, [] => if acc.isEmpty then [] else [String.mk acc.reverse]
  | acc, c :: rest =>
    if pySpace c then
      if acc.isEmpty then splitWsAux [] rest
      else String.mk acc.reverse :: splitWsAux [] rest
    else splitWsAux (c :: acc) rest

/-- The class attribute split on whitespace, as BeautifulSoup exposes
multi-valued class attributes. -/
def Node.classList (n : Node) : List String :=
  splitWsAux [] ((n.attr "class").getD "").toList

/-- find_all(names): every descendant element whose tag is one of the
names, in document order. -/
def Node.findTags (n : Node) (names : List String) : List Node :=
  n.descendants.filter (fun d =>
    match d.tagName with
    | some t => names.contains t
    | none => false)

/-- find(name): first descendant element with the given tag. -/
def Node.findTag (n : Node) (name : String) : Option Node :=
  (n.findTags [name]).head?

/-- find(name, class_=cl): first descendant element with the tag whose
class values contain cl. -/
def Node.findTagClass (n : Node) (name cl : String) : Option Node :=
  (n.descendants.filter (fun d =>
    d.tagName == some name && d.classList.contains cl)).head?

/-- find(string=regex): the first text node (document order) on which
the regex search succeeds.  The only use carries re.IGNORECASE, which
is modelled by lower-casing the text against a lower-case pattern. -/
def Node.findString (n : Node) (r : Re) : Option String :=
  (n.descendants.filterMap (fun d =>
    match d with
    | .text s => if reSearch r (pyLower s) then some s else none
    | .tag _ _ _ => none)).head?

/-! ### The CSS selectors used by scrape_naukri, as structured data -/

inductive SimpleSel
  /-- a bare tag name -/
  | tagName (t : String)
  /-- .c -/
  | cls (c : String)
  /-- t.c -/
  | tagCls (t c : String)
  /-- [a*="v"] -/
  | attrSub (a v : String)
  /-- t[a*="v"] -/
  | tagAttrSub (t a v : String)
deriving DecidableEq

def SimpleSel.sat : SimpleSel → Node → Bool
  | .tagName t, n => n.tagName == some t
  | .cls c, n => n.classList.contains c
  | .tagCls t c, n => n.tagName == some t && n.classList.contains c
  | .attrSub a v, n =>
    match n.attr a with
    | some s => listContainsSub v.toList s.toList
    | none => false
  | .tagAttrSub t a v, n =>
    n.tagName == some t &&
      match n.attr a with
      | some s => listContainsSub v.toList s.toList
      | none => false

inductive Sel
  /-- one simple selector -/
  | simple (s : SimpleSel)
  /-- descendant combinator: anc d -/
  | desc (anc : SimpleSel) (d : SimpleSel)
deriving DecidableEq

/-- A node with the given strict ancestors satisfies the selector. -/
def Sel.sat (s : Sel) (ancestors : List Node) (n : Node) : Bool :=
  match s with
  | .simple ss => ss.sat n
  | .desc a d => d.sat n && ancestors.any (fun x => a.sat x)

mutual
/-- Candidate nodes for a CSS match below one subtree root: every
descendant of the node paired with its strict ancestor chain, in
document order (anc is the chain of the node itself). -/
def selCands (anc : List Node) : Node → List (List Node × Node)
  | .text _ => []
  | .tag nm a cs => selCandsList (Node.tag nm a cs :: anc) cs
/-- Candidates over sibling subtrees: each sibling first, then its
descendants, then the later siblings. -/
def selCandsList (anc : List Node) : List Node → List (List Node × Node)
  | [] => []
  | n :: ns => (anc, n) :: (selCands anc n ++ selCandsList anc ns)
end

/-- select_one: first descendant, in document order, satisfying the
selector with its real ancestor chain. -/
def Node.selectOne (n : Node) (s : Sel) : Option Node :=
  match n with
  | .text _ => none
  | .tag nm a cs =>
    ((selCandsList [Node.tag nm a cs] cs).find? (fun p => s.sat p.1 p.2)).map
      (fun p => p.2)

/-! ### Responsibility extraction (src/job_scraper.py lines 241-263) -/

def resp_keywords : List String :=
  ["responsible", "manage", "develop", "work", "collaborate"]

/-- The list-item source: every li inside any ul/ol whose cleaned text
is longer than 10 characters and mentions one of the keywords. -/
def respFromLists (soup : Node) : List String :=
  (soup.findTags ["ul", "ol"]).flatMap (fun lst =>
    (lst.findTags ["li"]).filterMap (fun item =>
      let resp := clean_text item.getText
      if resp.length > 10 &&
          resp_keywords.any (fun w => pyContains (pyLower resp) w)
      then some resp else none))

/-- (backslash-d+[.)] backslash-s*[A-Z][^.]*.) — the numbered-sentence
pattern. -/
def numberedPat : Re :=
  .grp 1 (seqRe [.rep1 .digit, .cls .dotParen, .star .space,
                 .cls .upper, .star .notDot, .ch '.'])

/-- The numbered-sentence source: findall returns the single group;
keep cleaned matches longer than 15 characters. -/
def respNumbered (text : String) : List String :=
  (findAll numberedPat text.toList).filterMap (fun m =>
    let resp := clean_text (String.mk ((capLookup 1 m.2.caps).getD []))
    if resp.length > 15 then some resp else none)

/-- extract_responsibilities: list-item matches, then numbered-sentence
matches, truncated to the first 8. -/
def extract_responsibilities (soup : Node) (text : String) : List String :=
  (respFromLists soup ++ respNumbered text).take 8

/-! ### JobData (src/job_scraper.py lines 28-49) and enrichment -/

/-- The dataclass: every field optional, text fields defaulting to the
empty string and list fields (via __post_init__) to the empty list. -/
structure JobData where
  title : String := ""
  company : String := ""
  location : String := ""
  job_type : String := ""
  experience_required : String := ""
  description : String := ""
  responsibilities : List String := []
  required_skills : List String := []
  preferred_skills : List String := []
  salary : String := ""
  url : String := ""
deriving DecidableEq

/-- process_job_data (lines 430-445): recompute experience, required
skills and responsibilities from the description; the markup handed to
the responsibility extractor is BeautifulSoup re-applied to the
description string, here an explicit parseHtml parameter standing for
that external parser. -/
def process_job_data (parseHtml : String → Node) (job : JobData) : JobData :=
  let full_text := job.description
  { job with
    experience_required := extract_experience full_text
    required_skills := (extract_skills full_text).required_skills
    responsibilities :=
      extract_responsibilities (parseHtml job.description) full_text }

/-! ### Site detection (lines 265-280) -/

/-- Drop everything up to and including the first occurrence of pat. -/
def dropThrough (pat : List Char) : List Char → List Char
  | [] => []
  | c :: rest =>
    if pat.isPrefixOf (c :: rest) then List.drop pat.length (c :: rest)
    else dropThrough pat rest

/-- urlparse(url).netloc for the scheme://host/... URLs the scraper
receives: the text between the first :// and the following /, ? or #. -/
def netlocOf (url : String) : String :=
  if listContainsSub "://".toList url.toList then
    String.mk ((dropThrough "://".toList url.toList).takeWhile
      (fun c => c ≠ '/' && c ≠ '?' && c ≠ '#'))
  else ""

/-- detect_job_site: substring classification of the lower-cased
hostname. -/
def detect_job_site (url : String) : String :=
  let domain := pyLower (netlocOf url)
  if pyContains domain "linkedin.com" then "linkedin"
  else if pyContains domain "indeed.com" then "indeed"
  else if pyContains domain "glassdoor.com" then "glassdoor"
  else if pyContains domain "naukri.com" then "naukri"
  else if pyContains domain "monster.com" then "monster"
  else "generic"

/-! ### Per-site scrapers (lines 282-428) -/

/-- scrape_linkedin (lines 282-301): each field from its selector pair
(the Python a-or-b takes the first found element), missing fields left
at their defaults. -/
def scrape_linkedin (soup : Node) (url : String) : JobData :=
  let job : JobData := { url := url }
  let job :=
    match (soup.findTagClass "h1" "top-card-layout__title").orElse
        (fun _ => soup.findTag "h1") with
    | some e => { job with title := clean_text e.getText }
    | none => job
  let job :=
    match (soup.findTagClass "a" "topcard__org-name-link").orElse
        (fun _ => soup.findTagClass "span" "topcard__flavor") with
    | some e => { job with company := clean_text e.getText }
    | none => job
  match soup.findTagClass "div" "show-more-less-html__markup" with
  | some e => { job with description := clean_text e.getText }
  | none => job

def naukri_title_selectors : List Sel := [
  .simple (.tagAttrSub "h1" "class" "jd-header-title"),
  .simple (.cls "jd-header-title"),
  .simple (.tagCls "h1" "job-title"),
  .desc (.cls "job-header") (.tagName "h1"),
  .simple (.tagName "h1") ]

def naukri_company_selectors : List Sel := [
  .simple (.cls "jd-header-comp-name"),
  .simple (.cls "company-name"),
  .simple (.attrSub "class" "comp-name"),
  .desc (.cls "jd-header") (.cls "company"),
  .simple (.tagAttrSub "a" "title" "company") ]

def naukri_exp_selectors : List Sel := [
  .simple (.cls "jd-header-exp"),
  .simple (.cls "experience"),
  .simple (.attrSub "class" "exp"),
  .desc (.cls "job-details") (.cls "experience") ]

def naukri_location_selectors : List Sel := [
  .simple (.cls "jd-header-location"),
  .simple (.cls "location"),
  .simple (.attrSub "class" "location"),
  .simple (.cls "job-location") ]

def naukri_desc_selectors : List Sel := [
  .simple (.cls "jd-desc"),
  .simple (.cls "job-description"),
  .simple (.cls "description"),
  .simple (.attrSub "class" "job-desc"),
  .simple (.cls "jd-desc-content") ]

/-- First selector that finds an element wins; its cleaned text is the
field value (even when that text is empty). -/
def firstSelText (soup : Node) : List Sel → Option String
  | [] => none
  | s :: rest =>
    match soup.selectOne s with
    | some e => some (clean_text e.getText)
    | none => firstSelText soup rest

/-- The experience loop of scrape_naukri: a found element is accepted
only when its text mentions year/exp/experience, otherwise the scan
moves on to the next selector. -/
def naukriExpText (soup : Node) : List Sel → Option String
  | [] => none
  | s :: rest =>
    match soup.selectOne s with
    | some e =>
      let exp_text := clean_text e.getText
      if ["year", "exp", "experience"].any
          (fun k => pyContains (pyLower exp_text) k)
      then some exp_text
      else naukriExpText soup rest
    | none => naukriExpText soup rest

/-- scrape_naukri (lines 303-386).  The function ends at the return on
line 386; the Indeed-selector lines 387-405 that follow it inside the
same body are unreachable and therefore not part of the embedding. -/
def scrape_naukri (soup : Node) (url : String) : JobData :=
  let job : JobData := { url := url }
  let job :=
    match firstSelText soup naukri_title_selectors with
    | some t => { job with title := t }
    | none => job
  let job :=
    match firstSelText soup naukri_company_selectors with
    | some t => { job with company := t }
    | none => job
  let job :=
    match naukriExpText soup naukri_exp_selectors with
    | some t => { job with experience_required := t }
    | none => job
  let job :=
    match firstSelText soup naukri_location_selectors with
    | some t => { job with location := t }
    | none => job
  let job :=
    match firstSelText soup naukri_desc_selectors with
    | some t => { job with description := t }
    | none => job
  if job.description.toList.isEmpty then
    { job with description := clean_text soup.getText }
  else job

/-- job title|position with re.IGNORECASE (lower-cased matching). -/
def genericTitlePat : Re :=
  .alt (litRe "job title".toList) (litRe "position".toList)

/-- scrape_generic (lines 407-428): first of h1, title, h2, then a text
node matching the title pattern; description is always the cleaned full
page text. -/
def scrape_generic (soup : Node) (url : String) : JobData :=
  let job : JobData := { url := url }
  let cand : Option String :=
    match soup.findTag "h1" with
    | some e => some e.getText
    | none =>
      match soup.findTag "title" with
      | some e => some e.getText
      | none =>
        match soup.findTag "h2" with
        | some e => some e.getText
        | none => soup.findString genericTitlePat
  let job :=
    match cand with
    | some t => { job with title := clean_text t }
    | none => job
  { job with description := clean_text soup.getText }

/-! ### Orchestration (lines 447-485) -/

/-- Outcome of scrape_job on one URL.  The indeed branch of the routing
calls self.scrape_indeed, a method that does not exist (its intended
body is the unreachable code after scrape_naukri's return), so Python
raises AttributeError; that uncaught exception is the attrError
outcome. -/
inductive ScrapeResult
  | fetchFail
  | attrError
  | ok (j : JobData)
deriving DecidableEq

/-- scrape_job (lines 447-469): fetch (the fetched parameter is the
Fetcher's outcome for this URL), classify, route to the per-site
scraper, then enrich. -/
def scrape_job (parseHtml : String → Node) (fetched : Option Node)
    (url : String) : ScrapeResult :=
  match fetched with
  | none => .fetchFail
  | some soup =>
    let site := detect_job_site url
    if site = "linkedin" then
      .ok (process_job_data parseHtml (scrape_linkedin soup url))
    else if site = "indeed" then
      .attrError
    else if site = "naukri" then
      .ok (process_job_data parseHtml (scrape_naukri soup url))
    else
      .ok (process_job_data parseHtml (scrape_generic soup url))

/-- Events the batch loop performs, in order. -/
inductive BatchEvent
  | scrape (url : String)
  | sleep (secs : Nat)
deriving DecidableEq

/-- Result of the batch: either the collected jobs with the event
trace, or a crash (the uncaught AttributeError propagating out of the
loop) with the events so far; the jobs list local to the Python
function is lost on the crash. -/
inductive BatchResult
  | ok (jobs : List JobData) (events : List BatchEvent)
  | crashed (events : List BatchEvent)
deriving DecidableEq

/-- scrape_multiple_jobs (lines 471-485): strictly sequential; a None
from scrape_job is skipped; time.sleep(1) runs after every URL, so it
separates consecutive scrapes; an exception aborts the loop before the
sleep of the failing iteration. -/
def scrape_multiple_jobs (parseHtml : String → Node)
    (fetch : String → Option Node) : List String → BatchResult
  | [] => .ok [] []
  | url :: rest =>
    match scrape_job parseHtml (fetch url) url with
    | .attrError => .crashed [.scrape url]
    | .fetchFail =>
      match scrape_multiple_jobs parseHtml fetch rest with
      | .ok js evs => .ok js (.scrape url :: .sleep 1 :: evs)
      | .crashed evs => .crashed (.scrape url :: .sleep 1 :: evs)
    | .ok j =>
      match scrape_multiple_jobs parseHtml fetch rest with
      | .ok js evs => .ok (j :: js) (.scrape url :: .sleep 1 :: evs)
      | .crashed evs => .crashed (.scrape url :: .sleep 1 :: evs)

/-! ### JSON export (lines 507-526) -/

/-- The JSON values json.dump writes for this data. -/
inductive JVal
  | str (s : String)
  | arr (l : List JVal)
  | obj (fields : List (String × JVal))

/-- The object export_to_json builds for one job: exactly these eight
keys, in source order; job_type, preferred_skills and salary are not
written. -/
def jobToJsonObj (j : JobData) : List (String × JVal) := [
  ("title", .str j.title),
  ("company", .str j.company),
  ("location", .str j.location),
  ("experience_required", .str j.experience_required),
  ("required_skills", .arr (j.required_skills.map .str)),
  ("responsibilities", .arr (j.responsibilities.map .str)),
  ("description", .str j.description),
  ("url", .str j.url) ]

/-- export_to_json: the array of per-job objects (file writing and
UTF-8 encoding are outside the model; json.dump preserves these string
and list values verbatim). -/
def export_to_json (jobs : List JobData) : JVal :=
  .arr (jobs.map (fun j => .obj (jobToJsonObj j)))

/-- Key lookup in a JSON object. -/
def jLookup : List (String × JVal) → String → Option JVal
  | [], _ => none
  | (k, v) :: rest, key => if k = key then some v else jLookup rest key

/-- Read a string member, defaulting to the empty string. -/
def jStr (o : List (String × JVal)) (k : String) : String :=
  match jLookup o k with
  | some (.str s) => s
  | _ => ""

/-- The string carried by a JSON string value. -/
def jStrOf : JVal → Option String
  | .str s => some s
  | _ => none

/-- Read a string-array member, defaulting to the empty list. -/
def jStrList (o : List (String × JVal)) (k : String) : List String :=
  match jLookup o k with
  | some (.arr l) => l.filterMap jStrOf
  | _ => []

/-- Modelled from the spec: the repository has no import routine, so
re-parsing an exported file (spec section 8, round-trip property) is
json.load followed by reading each object's members back into a
JobRecord, absent members taking the dataclass defaults. -/
def parseJobRecord (v : JVal) : JobData :=
  match v with
  | .obj o =>
    { title := jStr o "title"
      company := jStr o "company"
      location := jStr o "location"
      job_type := jStr o "job_type"
      experience_required := jStr o "experience_required"
      description := jStr o "description"
      responsibilities := jStrList o "responsibilities"
      required_skills := jStrList o "required_skills"
      preferred_skills := jStrList o "preferred_skills"
      salary := jStr o "salary"
      url := jStr o "url" }
  | _ => {}

/-- Modelled from the spec: re-parsing the whole exported file. -/
def parseJobsFile (v : JVal) : Option (List JobData) :=
  match v with
  | .arr l => some (l.map parseJobRecord)
  | _ => none

/-! ### The Fetcher mode state machine (lines 54-135) -/

/-- The mutable mode state of JobScraper: the use_selenium flag and
whether a driver object is present. -/
structure ScraperState where
  use_selenium : Bool
  driver : Bool
deriving DecidableEq

/-- _setup_driver (lines 93-112): on success a driver exists; on any
initialisation failure the scraper permanently records
use_selenium = False, driver = None. -/
def setup_driver (init_ok : Bool) (s : ScraperState) : ScraperState :=
  if init_ok then { s with driver := true }
  else { use_selenium := false, driver := false }

/-- __init__ (lines 54-70): the driver is set up only when selenium was
requested. -/
def mkJobScraper (use_selenium : Bool) (init_ok : Bool) : ScraperState :=
  let s : ScraperState := { use_selenium := use_selenium, driver := false }
  if use_selenium then setup_driver init_ok s else s

inductive FetchPath
  | selenium
  | requests
deriving DecidableEq

/-- The routing test of fetch_page (line 128): selenium only when the
flag is set and a driver exists. -/
def fetchPathOf (s : ScraperState) : FetchPath :=
  if s.use_selenium ∧ s.driver then .selenium else .requests

/-- fetch_page (lines 122-135) never mutates the mode state: it reads
the flag, fetches, and returns; neither fetch helper assigns to
use_selenium or driver. -/
def fetch_page (s : ScraperState) : FetchPath × ScraperState :=
  (fetchPathOf s, s)

/-- A sequence of n fetch_page calls, recording the path each used. -/
def runFetches : Nat → ScraperState → List FetchPath × ScraperState
  | 0, s => ([], s)
  | n + 1, s =>
    let (p, s') := fetch_page s
    let (ps, s'') := runFetches n s'
    (p :: ps, s'')

/-! ### Properties of the text normaliser -/

/-- Every character collapseWs emits is either the space it substitutes
for a run or a character of the input. -/
theorem mem_collapseWs : ∀ (b : Bool) (l : List Char) (c : Char),
    c ∈ collapseWs b l → c = ' ' ∨ c ∈ l := by
  intro b l
  induction l generalizing b with
  | nil => intro c h; simp [collapseWs] at h
  | cons d rest ih =>
    intro c h
    simp only [collapseWs] at h
    split at h
    · split at h
      · rcases ih true c h with h1 | h2
        · exact Or.inl h1
        · exact Or.inr (List.mem_cons_of_mem _ h2)
      · rcases List.mem_cons.mp h with h1 | h2
        · exact Or.inl h1
        · rcases ih true c h2 with h3 | h4
          · exact Or.inl h3
          · exact Or.inr (List.mem_cons_of_mem _ h4)
    · rcases List.mem_cons.mp h with h1 | h2
      · exact Or.inr (h1 ▸ List.mem_cons_self d rest)
      · rcases ih false c h2 with h3 | h4
        · exact Or.inl h3
        · exact Or.inr (List.mem_cons_of_mem _ h4)

/-- One unfolding step of collapseWs: a whitespace character inside a
run is dropped. -/
theorem collapseWs_cons_sp_t {d : Char} {rest : List Char} (hd : pySpace d = true) :
    collapseWs true (d :: rest) = collapseWs true rest := by
  simp [collapseWs, hd]

/-- One unfolding step of collapseWs: a whitespace character opening a
run becomes a single space. -/
theorem collapseWs_cons_sp_f {d : Char} {rest : List Char} (hd : pySpace d = true) :
    collapseWs false (d :: rest) = ' ' :: collapseWs true rest := by
  simp [collapseWs, hd]

/-- One unfolding step of collapseWs: a non-space character passes
through. -/
theorem collapseWs_cons_nsp {b : Bool} {d : Char} {rest : List Char}
    (hd : pySpace d = false) :
    collapseWs b (d :: rest) = d :: collapseWs false rest := by
  simp [collapseWs, hd]

/-- After a space was just emitted, the next emitted character is not
whitespace. -/
theorem collapseWs_head_true : ∀ (l : List Char) (c : Char),
    (collapseWs true l).head? = some c → pySpace c = false := by
  intro l
  induction l with
  | nil => intro c h; simp [collapseWs] at h
  | cons d rest ih =>
    intro c h
    by_cases hd : pySpace d = true
    · rw [collapseWs_cons_sp_t hd] at h
      exact ih c h
    · have hd' : pySpace d = false := Bool.not_eq_true _ |>.mp hd
      rw [collapseWs_cons_nsp hd', List.head?_cons] at h
      cases h
      exact hd'

/-- If the input starts with a non-space character, so does the
output. -/
theorem collapseWs_head_false (l : List Char)
    (hin : ∀ x, l.head? = some x → pySpace x = false) :
    ∀ c, (collapseWs false l).head? = some c → pySpace c = false := by
  intro c h
  cases l with
  | nil => simp [collapseWs] at h
  | cons d rest =>
    have hd : pySpace d = false := hin d rfl
    rw [collapseWs_cons_nsp hd, List.head?_cons] at h
    cases h
    exact hd

/-- The output never has two consecutive whitespace characters. -/
theorem collapseWs_chain : ∀ (b : Bool) (l : List Char),
    (collapseWs b l).Chain' (fun a c => ¬(pySpace a = true ∧ pySpace c = true)) := by
  intro b l
  induction l generalizing b with
  | nil => simp [collapseWs]
  | cons d rest ih =>
    by_cases hd : pySpace d = true
    · cases b with
      | true => rw [collapseWs_cons_sp_t hd]; exact ih true
      | false =>
        rw [collapseWs_cons_sp_f hd]
        refine List.chain'_cons'.mpr ⟨?_, ih true⟩
        intro y hy
        have : pySpace y = false := collapseWs_head_true rest y hy
        simp [this]
    · have hd' : pySpace d = false := Bool.not_eq_true _ |>.mp hd
      rw [collapseWs_cons_nsp hd']
      refine List.chain'_cons'.mpr ⟨?_, ih false⟩
      intro y _
      simp [hd']

/-- A non-space character of the input keeps the output non-empty. -/
theorem collapseWs_ne_nil : ∀ (b : Bool) (l : List Char) (c : Char),
    c ∈ l → pySpace c = false → collapseWs b l ≠ [] := by
  intro b l
  induction l generalizing b with
  | nil => intro c h; simp at h
  | cons d rest ih =>
    intro c hmem hns
    by_cases hd : pySpace d = true
    · have hcr : c ∈ rest := by
        rcases List.mem_cons.mp hmem with h1 | h2
        · rw [h1] at hns; rw [hns] at hd; exact absurd hd (by simp)
        · exact h2
      cases b with
      | true => rw [collapseWs_cons_sp_t hd]; exact ih true c hcr hns
      | false => rw [collapseWs_cons_sp_f hd]; simp
    · have hd' : pySpace d = false := Bool.not_eq_true _ |>.mp hd
      rw [collapseWs_cons_nsp hd']; simp

/-- If the input ends with a non-space character, so does the
output. -/
theorem collapseWs_getLast? : ∀ (l : List Char) (b : Bool),
    (∀ x, l.getLast? = some x → pySpace x = false) →
    ∀ c, (collapseWs b l).getLast? = some c → pySpace c = false := by
  intro l
  induction l with
  | nil => intro b _ c h; simp [collapseWs] at h
  | cons d rest ih =>
    intro b hin c h
    cases rest with
    | nil =>
      have hd : pySpace d = false := hin d rfl
      rw [collapseWs_cons_nsp hd] at h
      simp only [collapseWs, List.getLast?_singleton] at h
      cases h
      exact hd
    | cons e rest' =>
      have hin' : ∀ x, (e :: rest').getLast? = some x → pySpace x = false := by
        intro x hx
        exact hin x (by rwa [List.getLast?_cons_cons])
      obtain ⟨x, hx⟩ : ∃ x, (e :: rest').getLast? = some x := by
        cases hq : (e :: rest').getLast? with
        | none => simp [List.getLast?_eq_none_iff] at hq
        | some y => exact ⟨y, rfl⟩
      have hxs : pySpace x = false := hin' x hx
      have hxm : x ∈ e :: rest' := List.mem_of_getLast?_eq_some hx
      by_cases hd : pySpace d = true
      · cases b with
        | true =>
          rw [collapseWs_cons_sp_t hd] at h
          exact ih true hin' c h
        | false =>
          rw [collapseWs_cons_sp_f hd] at h
          have hne : collapseWs true (e :: rest') ≠ [] :=
            collapseWs_ne_nil true (e :: rest') x hxm hxs
          cases hX : collapseWs true (e :: rest') with
          | nil => exact absurd hX hne
          | cons y ys =>
            rw [hX, List.getLast?_cons_cons] at h
            exact ih true hin' c (by rwa [hX])
      · have hd' : pySpace d = false := Bool.not_eq_true _ |>.mp hd
        rw [collapseWs_cons_nsp hd'] at h
        have hne : collapseWs false (e :: rest') ≠ [] :=
          collapseWs_ne_nil false (e :: rest') x hxm hxs
        cases hX : collapseWs false (e :: rest') with
        | nil => exact absurd hX hne
        | cons y ys =>
          rw [hX, List.getLast?_cons_cons] at h
          exact ih false hin' c (by rwa [hX])

/-- Characters of the stripped list come from the input. -/
theorem mem_pyStrip (l : List Char) (c : Char) (h : c ∈ pyStrip l) : c ∈ l := by
  unfold pyStrip at h
  rw [List.mem_reverse] at h
  have h2 := (List.dropWhile_sublist pySpace).subset h
  rw [List.mem_reverse] at h2
  exact (List.dropWhile_sublist pySpace).subset h2

/-- The stripped list does not start with whitespace. -/
theorem pyStrip_head? (l : List Char) (c : Char)
    (h : (pyStrip l).head? = some c) : pySpace c = false := by
  unfold pyStrip at h
  rw [List.head?_reverse] at h
  obtain ⟨t, ht⟩ :=
    List.dropWhile_suffix (l := (l.dropWhile pySpace).reverse) pySpace
  have hBlast : ((l.dropWhile pySpace).reverse).getLast? = some c := by
    rw [← ht, List.getLast?_append, h]
    rfl
  rw [List.getLast?_reverse] at hBlast
  have hw := List.head?_dropWhile_not pySpace l
  rw [hBlast] at hw
  exact hw

/-- The stripped list does not end with whitespace. -/
theorem pyStrip_getLast? (l : List Char) (c : Char)
    (h : (pyStrip l).getLast? = some c) : pySpace c = false := by
  unfold pyStrip at h
  rw [List.getLast?_reverse] at h
  have hw := List.head?_dropWhile_not pySpace (l.dropWhile pySpace).reverse
  rw [h] at hw
  exact hw

/-- str.replace is the identity when the first character of the
(non-empty) pattern does not occur in the text. -/
theorem pyReplaceFuel_not_mem (rep : List Char) (c0 : Char) (tl : List Char) :
    ∀ (fuel : Nat) (l : List Char), c0 ∉ l →
      pyReplaceFuel (c0 :: tl) rep fuel l = l := by
  intro fuel
  induction fuel with
  | zero => intro l _; rfl
  | succ n ih =>
    intro l h
    cases l with
    | nil => rfl
    | cons c rest =>
      have hc : ¬(c0 = c) := fun he => h (he ▸ List.mem_cons_self c rest)
      have hpre : (c0 :: tl).isPrefixOf (c :: rest) = false := by
        simp [List.isPrefixOf, hc]
      have hrest : c0 ∉ rest := fun hm => h (List.mem_cons_of_mem _ hm)
      simp only [pyReplaceFuel, hpre, Bool.false_eq_true, false_and, if_false]
      rw [ih rest hrest]

/-- A successful substring test for a non-empty needle puts the
needle's first character in the haystack. -/
theorem listContainsSub_head_mem (c0 : Char) (tl : List Char) :
    ∀ l, listContainsSub (c0 :: tl) l = true → c0 ∈ l := by
  intro l
  induction l with
  | nil => intro h; simp [listContainsSub, List.isEmpty] at h
  | cons c rest ih =>
    intro h
    simp only [listContainsSub, Bool.or_eq_true] at h
    rcases h with h1 | h2
    · have h3 : (c0 == c) = true ∧ tl.isPrefixOf rest = true := by
        simpa [List.isPrefixOf] using h1
      have : c0 = c := by simpa using h3.1
      exact this ▸ List.mem_cons_self c rest
    · exact List.mem_cons_of_mem _ (ih h2)
/-! ### The normaliser properties claimed by the specification -/

/-- No run of two or more consecutive whitespace characters. -/
def noWsRun (s : String) : Prop :=
  s.toList.Chain' (fun a c => ¬(pySpace a = true ∧ pySpace c = true))

/-- Neither the first nor the last character is whitespace. -/
def trimmed (s : String) : Prop :=
  (∀ c, s.toList.head? = some c → pySpace c = false) ∧
  (∀ c, s.toList.getLast? = some c → pySpace c = false)

/-- The four entities clean_text decodes. -/
def entity_strings : List String := ["&nbsp;", "&amp;", "&lt;", "&gt;"]

/-- None of the four entities occurs literally as a substring. -/
def noEntities (s : String) : Prop :=
  ∀ e ∈ entity_strings, listContainsSub e.toList s.toList = false

/-- On ampersand-free input the four entity replacements are the
identity, so clean_text is exactly strip-and-collapse. -/
theorem clean_text_of_no_amp (t : String) (h : '&' ∉ t.toList) :
    clean_text t = String.mk (collapseWs false (pyStrip t.toList)) := by
  have hmem : '&' ∉ collapseWs false (pyStrip t.toList) := by
    intro hm
    rcases mem_collapseWs false (pyStrip t.toList) '&' hm with h1 | h2
    · exact absurd h1 (by decide)
    · exact h (mem_pyStrip t.toList '&' h2)
  unfold clean_text
  have e1 : pyReplace (String.mk (collapseWs false (pyStrip t.toList))) "&nbsp;" " " =
      String.mk (collapseWs false (pyStrip t.toList)) := by
    unfold pyReplace
    rw [show ("&nbsp;" : String).toList = '&' :: "nbsp;".toList from rfl]
    rw [show (String.mk (collapseWs false (pyStrip t.toList))).toList =
      collapseWs false (pyStrip t.toList) from rfl]
    rw [pyReplaceFuel_not_mem _ '&' _ _ _ hmem]
  have e2 : pyReplace (String.mk (collapseWs false (pyStrip t.toList))) "&amp;" "&" =
      String.mk (collapseWs false (pyStrip t.toList)) := by
    unfold pyReplace
    rw [show ("&amp;" : String).toList = '&' :: "amp;".toList from rfl]
    rw [show (String.mk (collapseWs false (pyStrip t.toList))).toList =
      collapseWs false (pyStrip t.toList) from rfl]
    rw [pyReplaceFuel_not_mem _ '&' _ _ _ hmem]
  have e3 : pyReplace (String.mk (collapseWs false (pyStrip t.toList))) "&lt;" "<" =
      String.mk (collapseWs false (pyStrip t.toList)) := by
    unfold pyReplace
    rw [show ("&lt;" : String).toList = '&' :: "lt;".toList from rfl]
    rw [show (String.mk (collapseWs false (pyStrip t.toList))).toList =
      collapseWs false (pyStrip t.toList) from rfl]
    rw [pyReplaceFuel_not_mem _ '&' _ _ _ hmem]
  have e4 : pyReplace (String.mk (collapseWs false (pyStrip t.toList))) "&gt;" ">" =
      String.mk (collapseWs false (pyStrip t.toList)) := by
    unfold pyReplace
    rw [show ("&gt;" : String).toList = '&' :: "gt;".toList from rfl]
    rw [show (String.mk (collapseWs false (pyStrip t.toList))).toList =
      collapseWs false (pyStrip t.toList) from rfl]
    rw [pyReplaceFuel_not_mem _ '&' _ _ _ hmem]
  show pyReplace (pyReplace (pyReplace (pyReplace
      (String.mk (collapseWs false (pyStrip t.toList))) "&nbsp;" " ")
      "&amp;" "&") "&lt;" "<") "&gt;" ">" =
    String.mk (collapseWs false (pyStrip t.toList))
  rw [e1, e2, e3, e4]

/-! ### Further helper lemmas for the claims -/

/-- scrape_job only raises the AttributeError on a successfully fetched
page whose URL classifies as indeed. -/
theorem scrape_job_attrError_site {parseHtml : String → Node}
    {fetched : Option Node} {url : String}
    (h : scrape_job parseHtml fetched url = ScrapeResult.attrError) :
    detect_job_site url = "indeed" ∧ fetched ≠ none := by
  cases fetched with
  | none => simp [scrape_job] at h
  | some soup =>
    refine ⟨?_, by simp⟩
    by_cases h1 : detect_job_site url = "linkedin"
    · simp [scrape_job, h1] at h
    · by_cases h2 : detect_job_site url = "indeed"
      · exact h2
      · by_cases h3 : detect_job_site url = "naukri"
        · simp [scrape_job, h1, h2, h3] at h
        · simp [scrape_job, h1, h2, h3] at h

/-- A markup tree with no element among its descendants. -/
def noElements (n : Node) : Bool :=
  n.descendants.all (fun d =>
    match d with
    | .text _ => true
    | .tag _ _ _ => false)

/-- find_all finds nothing in an element-free tree. -/
theorem findTags_of_noElements (n : Node) (names : List String)
    (h : noElements n = true) : n.findTags names = [] := by
  unfold Node.findTags
  rw [List.filter_eq_nil_iff]
  intro d hd
  have hall := (List.all_eq_true.mp h) d hd
  cases d with
  | text s => simp [Node.tagName]
  | tag nm a ch => simp at hall

/-- The list-item source of the responsibility extractor is empty on an
element-free tree. -/
theorem respFromLists_of_noElements (n : Node) (h : noElements n = true) :
    respFromLists n = [] := by
  unfold respFromLists
  rw [findTags_of_noElements n _ h]
  rfl

/-- Reading back an array of JSON strings returns the original list. -/
theorem filterMap_jStrOf_comp (l : List String) :
    l.filterMap (jStrOf ∘ JVal.str) = l := by
  induction l with
  | nil => rfl
  | cons s rest ih => simp [jStrOf, List.filterMap_cons, Function.comp, ih]

/-- The three fields export_to_json does not write, reset to their
dataclass defaults. -/
def stripUnexported (j : JobData) : JobData :=
  { j with job_type := "", salary := "", preferred_skills := [] }

/-- Re-parsing one exported object recovers the eight exported fields
and defaults the rest. -/
theorem parseJobRecord_export (j : JobData) :
    parseJobRecord (.obj (jobToJsonObj j)) = stripUnexported j := by
  unfold parseJobRecord jobToJsonObj stripUnexported
  simp [jStr, jStrList, jLookup, filterMap_jStrOf_comp]

/-- Re-parsing the exported file maps every record through
stripUnexported. -/
theorem parseJobsFile_export (jobs : List JobData) :
    parseJobsFile (export_to_json jobs) = some (jobs.map stripUnexported) := by
  show some (List.map parseJobRecord
      (List.map (fun j => JVal.obj (jobToJsonObj j)) jobs)) =
    some (List.map stripUnexported jobs)
  rw [List.map_map]
  congr 1
  apply List.map_congr_left
  intro j _
  exact parseJobRecord_export j

/-! ### Concrete fixtures for the claim theorems -/

/-- The trivial external parser: markup-free text parses to a bare text
node, as html.parser does on input without tags. -/
def parseFlat : String → Node := fun s => Node.text s

def urlIndeed : String := "https://www.indeed.com/viewjob?jk=1"

def soupPlain : Node := Node.tag "html" [] [Node.text "hi"]

/-! ### C1 -/

/-- C1: the spec claims an Indeed-classified URL gets an Indeed-specific
per-site scraper whose record is then enriched; in the code the call
scrape_indeed targets a method that was never defined (its intended body
sits unreachable after scrape_naukri's return), so every successfully
fetched indeed URL raises AttributeError instead of producing a
record. -/
theorem C1_indeed_routes_to_attrError (parseHtml : String → Node) (soup : Node)
    (url : String) (h : detect_job_site url = "indeed") :
    scrape_job parseHtml (some soup) url = ScrapeResult.attrError := by
  simp [scrape_job, h]

/-- C1 witness: the crash at a concrete fetched indeed URL. -/
theorem C1_indeed_routes_to_attrError_witness :
    detect_job_site urlIndeed = "indeed" ∧
    scrape_job parseFlat (some soupPlain) urlIndeed = ScrapeResult.attrError :=
  ⟨by decide, C1_indeed_routes_to_attrError parseFlat soupPlain urlIndeed (by decide)⟩

/-! ### C2 -/

def fetchPlain : String → Option Node := fun _ => some soupPlain

def urlsCrash : List String :=
  ["https://careers.acme.com/job/9", "https://www.indeed.com/viewjob?jk=1",
   "https://careers.acme.com/job/10"]

/-- C2 counterexample: a batch containing a successfully fetched indeed
URL crashes at that URL; the remaining URL is never scraped, the record
already scraped is lost, and no list of records is returned at all,
contradicting the claim that no per-URL failure aborts the remaining
batch. -/
theorem C2_counterexample :
    scrape_multiple_jobs parseFlat fetchPlain urlsCrash =
      BatchResult.crashed
        [BatchEvent.scrape "https://careers.acme.com/job/9",
         BatchEvent.sleep 1,
         BatchEvent.scrape "https://www.indeed.com/viewjob?jk=1"] := by
  decide

/-- C2 (amended): for batches in which no successfully fetched URL
classifies as indeed, scrapeMany scrapes each URL in order, skips fetch
failures without retrying, returns exactly the successful records in
input order, and sleeps one time unit after each URL, so consecutive
scrapes are separated by exactly one pause. -/
theorem C2_batch_order_and_skips (parseHtml : String → Node)
    (fetch : String → Option Node) (urls : List String)
    (h : ∀ u ∈ urls, detect_job_site u = "indeed" → fetch u = none) :
    scrape_multiple_jobs parseHtml fetch urls =
      BatchResult.ok
        (urls.filterMap (fun u =>
          match scrape_job parseHtml (fetch u) u with
          | .ok j => some j
          | _ => none))
        (urls.flatMap (fun u => [BatchEvent.scrape u, BatchEvent.sleep 1])) := by
  induction urls with
  | nil => rfl
  | cons u rest ih =>
    have hrest : ∀ v ∈ rest, detect_job_site v = "indeed" → fetch v = none :=
      fun v hv => h v (List.mem_cons_of_mem _ hv)
    have hstep := ih hrest
    cases hsj : scrape_job parseHtml (fetch u) u with
    | attrError =>
      obtain ⟨hind, hsome⟩ := scrape_job_attrError_site hsj
      exact absurd (h u (List.mem_cons_self u rest) hind) hsome
    | fetchFail =>
      simp [scrape_multiple_jobs, hsj, hstep, List.filterMap_cons, List.flatMap_cons]
    | ok j =>
      simp [scrape_multiple_jobs, hsj, hstep, List.filterMap_cons, List.flatMap_cons]

def urlsMix : List String :=
  ["https://careers.acme.com/job/9", "https://bad.example.com/x"]

def fetchMix : String → Option Node := fun u =>
  if u = "https://bad.example.com/x" then none else some soupPlain

/-- C2 witness: a concrete indeed-free batch with one success and one
fetch failure. -/
theorem C2_batch_order_and_skips_witness :
    (∀ u ∈ urlsMix, detect_job_site u = "indeed" → fetchMix u = none) ∧
    scrape_multiple_jobs parseFlat fetchMix urlsMix =
      BatchResult.ok
        (urlsMix.filterMap (fun u =>
          match scrape_job parseFlat (fetchMix u) u with
          | .ok j => some j
          | _ => none))
        (urlsMix.flatMap (fun u => [BatchEvent.scrape u, BatchEvent.sleep 1])) := by
  have hyp : ∀ u ∈ urlsMix, detect_job_site u = "indeed" → fetchMix u = none := by
    intro u hu hind
    rcases List.mem_cons.mp hu with h1 | h2
    · rw [h1] at hind; exact absurd hind (by decide)
    · rcases List.mem_cons.mp h2 with h3 | h4
      · rw [h3] at hind; exact absurd hind (by decide)
      · exact absurd h4 (List.not_mem_nil u)
  exact ⟨hyp, C2_batch_order_and_skips parseFlat fetchMix urlsMix hyp⟩

/-! ### C3 -/

def soupNk : Node := Node.tag "[document]" [] [
  Node.tag "html" [] [
    Node.tag "div" [("class", "jd-header-exp")] [Node.text "2 to 4 years"],
    Node.tag "div" [("class", "jd-desc")] [Node.text "Great job."] ] ]

def urlNk : String := "https://www.naukri.com/job-listings-sample"

/-- C3 counterexample: the Naukri scraper fills experienceRequired from
its selector, but enrichment unconditionally overwrites it from the
description text, so the scraper's value does not survive. -/
theorem C3_counterexample :
    (scrape_naukri soupNk urlNk).experience_required = "2 to 4 years" ∧
    (process_job_data parseFlat (scrape_naukri soupNk urlNk)).experience_required
      = "Not specified" := by
  exact ⟨by decide, by decide⟩

/-- C3 (amended): enrichment unconditionally recomputes
experienceRequired, requiredSkills and responsibilities from the
description (whether or not the per-site scraper set them), and leaves
title, company, location, jobType, salary, url, description and
preferredSkills unchanged. -/
theorem C3_enrichment_recomputes_and_frames (parseHtml : String → Node)
    (job : JobData) :
    (process_job_data parseHtml job).title = job.title ∧
    (process_job_data parseHtml job).company = job.company ∧
    (process_job_data parseHtml job).location = job.location ∧
    (process_job_data parseHtml job).job_type = job.job_type ∧
    (process_job_data parseHtml job).salary = job.salary ∧
    (process_job_data parseHtml job).url = job.url ∧
    (process_job_data parseHtml job).description = job.description ∧
    (process_job_data parseHtml job).preferred_skills = job.preferred_skills ∧
    (process_job_data parseHtml job).experience_required =
      extract_experience job.description ∧
    (process_job_data parseHtml job).required_skills =
      (extract_skills job.description).required_skills ∧
    (process_job_data parseHtml job).responsibilities =
      extract_responsibilities (parseHtml job.description) job.description :=
  ⟨rfl, rfl, rfl, rfl, rfl, rfl, rfl, rfl, rfl, rfl, rfl⟩

/-! ### C4 -/

/-- C4 counterexample: the entity replacements run after whitespace
collapsing, so clean_text can emit a literal entity (decoding the amp
of amp-amp-semicolon re-creates amp-semicolon), a run of two spaces
(the space decoded from nbsp next to an existing space), and trailing
whitespace (a trailing nbsp), all of which the claim rules out. -/
theorem C4_counterexample :
    clean_text "&amp;amp;" = "&amp;" ∧
    listContainsSub "&amp;".toList (clean_text "&amp;amp;").toList = true ∧
    clean_text "a&nbsp; b" = "a  b" ∧
    ¬ noWsRun (clean_text "a&nbsp; b") ∧
    (clean_text "c&nbsp;").toList.getLast? = some ' ' ∧
    pySpace ' ' = true := by
  refine ⟨by decide, by decide, by decide, ?_, by decide, by decide⟩
  intro hch
  unfold noWsRun at hch
  rw [show (clean_text "a&nbsp; b").toList = ['a', ' ', ' ', 'b'] from by decide] at hch
  rcases List.chain'_cons'.mp hch with ⟨_, hch2⟩
  rcases List.chain'_cons'.mp hch2 with ⟨hrel, _⟩
  exact hrel ' ' rfl ⟨rfl, rfl⟩

/-- C4 (amended): on input free of ampersands the normaliser meets the
claim: the output has no run of two or more whitespace characters, no
leading or trailing whitespace, and no literal entity substring; in
general the entity decodings that run after collapsing can violate all
three.  The function is total by construction and the empty string maps
to itself. -/
theorem C4_normalizer_on_amp_free (t : String) (h : '&' ∉ t.toList) :
    noWsRun (clean_text t) ∧ trimmed (clean_text t) ∧ noEntities (clean_text t) := by
  rw [clean_text_of_no_amp t h]
  have hmem : '&' ∉ collapseWs false (pyStrip t.toList) := by
    intro hm
    rcases mem_collapseWs false (pyStrip t.toList) '&' hm with h1 | h2
    · exact absurd h1 (by decide)
    · exact h (mem_pyStrip t.toList '&' h2)
  refine ⟨?_, ⟨?_, ?_⟩, ?_⟩
  · show (collapseWs false (pyStrip t.toList)).Chain' _
    exact collapseWs_chain false (pyStrip t.toList)
  · intro c hc
    exact collapseWs_head_false (pyStrip t.toList)
      (fun x hx => pyStrip_head? t.toList x hx) c hc
  · intro c hc
    exact collapseWs_getLast? (pyStrip t.toList) false
      (fun x hx => pyStrip_getLast? t.toList x hx) c hc
  · have key : ∀ tl : List Char,
        listContainsSub ('&' :: tl) (collapseWs false (pyStrip t.toList)) = false := by
      intro tl
      cases hq : listContainsSub ('&' :: tl) (collapseWs false (pyStrip t.toList)) with
      | true => exact absurd (listContainsSub_head_mem '&' tl _ hq) hmem
      | false => rfl
    intro e he
    simp only [entity_strings, List.mem_cons, List.not_mem_nil, or_false] at he
    rcases he with rfl | rfl | rfl | rfl
    · exact key "nbsp;".toList
    · exact key "amp;".toList
    · exact key "lt;".toList
    · exact key "gt;".toList

/-- C4 witness: a concrete ampersand-free input. -/
theorem C4_normalizer_on_amp_free_witness :
    ('&' ∉ ("  hello   world\t! ").toList) ∧
    (noWsRun (clean_text "  hello   world\t! ") ∧
     trimmed (clean_text "  hello   world\t! ") ∧
     noEntities (clean_text "  hello   world\t! ")) :=
  ⟨by decide, C4_normalizer_on_amp_free "  hello   world\t! " (by decide)⟩

/-! ### C5 -/

/-- C5: the experience extractor returns the five specified results on
the five specified inputs, and the rules fire in the listed priority:
whichever numeric pattern decides first wins, otherwise entry-level
keywords, otherwise senior keywords, otherwise the default. -/
theorem C5_experience_rules :
    extract_experience "5-7 years experience required" = "5-7 years" ∧
    extract_experience "minimum 3 years" = "3+ years" ∧
    extract_experience "Looking for a fresher" = "Entry Level" ∧
    extract_experience "Senior Architect role" = "Senior Level (5+ years)" ∧
    (∀ t r, tryExpPatterns (pyLower t).toList = some r →
      extract_experience t = r) ∧
    (∀ t, tryExpPatterns (pyLower t).toList = none →
      entry_terms.any (fun w => pyContains (pyLower t) w) = true →
      extract_experience t = "Entry Level") ∧
    (∀ t, tryExpPatterns (pyLower t).toList = none →
      entry_terms.any (fun w => pyContains (pyLower t) w) = false →
      senior_terms.any (fun w => pyContains (pyLower t) w) = true →
      extract_experience t = "Senior Level (5+ years)") ∧
    (∀ t, tryExpPatterns (pyLower t).toList = none →
      entry_terms.any (fun w => pyContains (pyLower t) w) = false →
      senior_terms.any (fun w => pyContains (pyLower t) w) = false →
      extract_experience t = "Not specified") := by
  refine ⟨by decide, by decide, by decide, by decide, ?_, ?_, ?_, ?_⟩
  · intro t r hr
    have hr2 : tryExpPatterns (pyLower t).data = some r := hr
    simp [extract_experience, hr2]
  · intro t hr he
    have hr2 : tryExpPatterns (pyLower t).data = none := hr
    simp [extract_experience, hr2, he]
  · intro t hr he hs
    have hr2 : tryExpPatterns (pyLower t).data = none := hr
    simp [extract_experience, hr2, he, hs]
  · intro t hr he hs
    have hr2 : tryExpPatterns (pyLower t).data = none := hr
    simp [extract_experience, hr2, he, hs]

/-- C5 witness: the default rule at a concrete input that matches no
pattern and no keyword. -/
theorem C5_experience_rules_witness :
    tryExpPatterns (pyLower "hello world").toList = none ∧
    entry_terms.any (fun w => pyContains (pyLower "hello world") w) = false ∧
    senior_terms.any (fun w => pyContains (pyLower "hello world") w) = false ∧
    extract_experience "hello world" = "Not specified" :=
  ⟨by decide, by decide, by decide,
   C5_experience_rules.2.2.2.2.2.2.2 "hello world" (by decide) (by decide) (by decide)⟩

/-! ### C6 -/

/-- C6: any text containing python and aws (case-insensitively) yields
both vocabulary entries among the found skills, and for every text the
additional skills are deduplicated and never exceed 10 entries. -/
theorem C6_skill_extractor :
    (∀ t, pyContains (pyLower t) "python" = true →
      "python" ∈ (extract_skills t).required_skills) ∧
    (∀ t, pyContains (pyLower t) "aws" = true →
      "aws" ∈ (extract_skills t).required_skills) ∧
    (∀ t, (extract_skills t).additional_skills.Nodup ∧
      (extract_skills t).additional_skills.length ≤ 10) := by
  refine ⟨?_, ?_, ?_⟩
  · intro t ht
    show "python" ∈ skill_keywords.filter (fun k => pyContains (pyLower t) (pyLower k))
    refine List.mem_filter.mpr ⟨by decide, ?_⟩
    rw [show pyLower "python" = "python" from by decide]
    exact ht
  · intro t ht
    show "aws" ∈ skill_keywords.filter (fun k => pyContains (pyLower t) (pyLower k))
    refine List.mem_filter.mpr ⟨by decide, ?_⟩
    rw [show pyLower "aws" = "aws" from by decide]
    exact ht
  · intro t
    constructor
    · exact (List.take_sublist _ _).nodup (List.nodup_dedup _)
    · exact List.length_take_le _ _

/-- C6 witness: a concrete text containing Python and AWS in mixed
case. -/
theorem C6_skill_extractor_witness :
    pyContains (pyLower "We use Python and AWS daily") "python" = true ∧
    pyContains (pyLower "We use Python and AWS daily") "aws" = true ∧
    "python" ∈ (extract_skills "We use Python and AWS daily").required_skills ∧
    "aws" ∈ (extract_skills "We use Python and AWS daily").required_skills :=
  ⟨by decide, by decide,
   C6_skill_extractor.1 "We use Python and AWS daily" (by decide),
   C6_skill_extractor.2.1 "We use Python and AWS daily" (by decide)⟩

/-! ### C7 -/

/-- A list item holding one text snippet. -/
def liOf (s : String) : Node := Node.tag "li" [] [Node.text s]

def respLines : List String := [
  "Responsible for managing the deployment pipeline daily 1",
  "Responsible for managing the deployment pipeline daily 2",
  "Responsible for managing the deployment pipeline daily 3",
  "Responsible for managing the deployment pipeline daily 4",
  "Responsible for managing the deployment pipeline daily 5",
  "Responsible for managing the deployment pipeline daily 6",
  "Responsible for managing the deployment pipeline daily 7",
  "Responsible for managing the deployment pipeline daily 8",
  "Responsible for managing the deployment pipeline daily 9" ]

/-- A page with one unordered list of nine qualifying items. -/
def soupNine : Node := Node.tag "[document]" [] [
  Node.tag "ul" [] (respLines.map liOf)]

/-- C7 counterexample: all nine list items of soupNine qualify (long
enough and keyword-bearing), yet the extractor truncates to 8, so the
ninth qualifying item is not included, contrary to the claim that every
qualifying list item is included. -/
theorem C7_counterexample :
    ((soupNine.findTags ["ul", "ol"]).flatMap (fun lst =>
      (lst.findTags ["li"]).map (fun item => clean_text item.getText))) =
      respLines ∧
    (clean_text (liOf "Responsible for managing the deployment pipeline daily 9").getText).length > 10 ∧
    resp_keywords.any (fun w =>
      pyContains (pyLower (clean_text
        (liOf "Responsible for managing the deployment pipeline daily 9").getText)) w) = true ∧
    "Responsible for managing the deployment pipeline daily 9" ∉
      extract_responsibilities soupNine "" ∧
    (extract_responsibilities soupNine "").length = 8 := by
  refine ⟨by decide, by decide, by decide, by decide, by decide⟩

def ulMisc : Node := Node.tag "ul" [] [
  liOf "Responsible for managing the deployment pipeline daily",
  liOf "Misc" ]

def soupMisc : Node := Node.tag "[document]" [] [ulMisc]

/-- C7 (amended): the output is the concatenation of list-item matches
(in document order) followed by numbered-sentence matches, truncated to
the first 8, so it never exceeds 8 entries; every list item whose
cleaned text is longer than 10 characters and mentions a keyword enters
the pre-truncation list-item pass (items beyond the first 8 of the
concatenation are dropped); concretely the qualifying example item is
included and the too-short item Misc is excluded. -/
theorem C7_resp_extractor (soup : Node) (lst item : Node) (text : String)
    (hlst : lst ∈ soup.findTags ["ul", "ol"])
    (hitem : item ∈ lst.findTags ["li"])
    (hlen : (clean_text item.getText).length > 10)
    (hkw : resp_keywords.any (fun w =>
      pyContains (pyLower (clean_text item.getText)) w) = true) :
    extract_responsibilities soup text =
      (respFromLists soup ++ respNumbered text).take 8 ∧
    (extract_responsibilities soup text).length ≤ 8 ∧
    clean_text item.getText ∈ respFromLists soup ∧
    extract_responsibilities soupMisc "" =
      ["Responsible for managing the deployment pipeline daily"] := by
  refine ⟨rfl, List.length_take_le _ _, ?_, by decide⟩
  unfold respFromLists
  rw [List.mem_flatMap]
  refine ⟨lst, hlst, ?_⟩
  rw [List.mem_filterMap]
  refine ⟨item, hitem, ?_⟩
  have h1 : decide ((clean_text item.getText).length > 10) = true := decide_eq_true hlen
  simp [h1, hkw]

/-- C7 witness: the amended statement at the concrete two-item list. -/
theorem C7_resp_extractor_witness :
    (clean_text (liOf "Responsible for managing the deployment pipeline daily").getText).length > 10 ∧
    clean_text (liOf "Responsible for managing the deployment pipeline daily").getText ∈
      respFromLists soupMisc :=
  ⟨by decide,
   (C7_resp_extractor soupMisc ulMisc
     (liOf "Responsible for managing the deployment pipeline daily") ""
     (by rw [show soupMisc.findTags ["ul", "ol"] = [ulMisc] from rfl]
         exact List.mem_singleton.mpr rfl)
     (by rw [show ulMisc.findTags ["li"] =
           [liOf "Responsible for managing the deployment pipeline daily", liOf "Misc"] from rfl]
         exact List.mem_cons_self _ _)
     (by decide) (by decide)).2.2.1⟩

/-! ### C8 -/

def jobSal : JobData := {
  title := "T",
  job_type := "full-time",
  salary := "$50k",
  preferred_skills := ["x"],
  url := "u" }

/-- C8 counterexample: export_to_json writes only eight fields, so
re-parsing a record that had jobType, salary or preferredSkills set
yields a record whose field values differ from the original. -/
theorem C8_counterexample :
    parseJobsFile (export_to_json [jobSal]) =
      some [{ jobSal with job_type := "", salary := "", preferred_skills := [] }] ∧
    ({ jobSal with job_type := "", salary := "", preferred_skills := [] } : JobData)
      ≠ jobSal := by
  exact ⟨by decide, by decide⟩

/-- C8 (amended): exporting N records to JSON and re-parsing yields N
records that agree with the originals on the eight exported fields
(title, company, location, experienceRequired, requiredSkills,
responsibilities, description, url); jobType, salary and
preferredSkills are not serialized and come back as their dataclass
defaults. -/
theorem C8_json_round_trip (jobs : List JobData) :
    parseJobsFile (export_to_json jobs) = some (jobs.map stripUnexported) ∧
    (jobs.map stripUnexported).length = jobs.length ∧
    ∀ j : JobData,
      (stripUnexported j).title = j.title ∧
      (stripUnexported j).company = j.company ∧
      (stripUnexported j).location = j.location ∧
      (stripUnexported j).experience_required = j.experience_required ∧
      (stripUnexported j).required_skills = j.required_skills ∧
      (stripUnexported j).responsibilities = j.responsibilities ∧
      (stripUnexported j).description = j.description ∧
      (stripUnexported j).url = j.url ∧
      (stripUnexported j).job_type = "" ∧
      (stripUnexported j).salary = "" ∧
      (stripUnexported j).preferred_skills = ([] : List String) :=
  ⟨parseJobsFile_export jobs, List.length_map _ _,
   fun _ => ⟨rfl, rfl, rfl, rfl, rfl, rfl, rfl, rfl, rfl, rfl, rfl⟩⟩

/-! ### C9 -/

/-- Unfolding one fetch_page call of the iterated fetch sequence. -/
theorem runFetches_succ (n : Nat) (s : ScraperState) :
    runFetches (n + 1) s = (fetchPathOf s :: (runFetches n s).1, (runFetches n s).2) := by
  simp [runFetches, fetch_page]

/-- C9: when browser initialisation fails at construction, the scraper
starts in the permanently downgraded state; every one of any number of
subsequent fetch_page calls takes the direct-HTTP path and leaves the
state unchanged, so the browser path is never retried. -/
theorem C9_fetcher_permanent_downgrade (n : Nat) :
    (runFetches n (mkJobScraper true false)).1 =
      List.replicate n FetchPath.requests ∧
    (runFetches n (mkJobScraper true false)).2 = mkJobScraper true false := by
  induction n with
  | zero => exact ⟨rfl, rfl⟩
  | succ m ih =>
    rw [runFetches_succ]
    refine ⟨?_, ih.2⟩
    rw [show fetchPathOf (mkJobScraper true false) = FetchPath.requests from by decide,
      ih.1, List.replicate_succ]

/-! ### C10 -/

/-- C10: scrape_job hands the responsibility extractor a re-parse of
the record's flattened description, not the fetched page markup; hence
whenever the parser turns markup-free text into an element-free tree
and the final record's description has no markup character, the
list-item source contributes nothing and the responsibilities are
exactly the numbered-sentence matches of the description text
(truncated to 8). -/
theorem C10_resp_from_reparsed_description (parseHtml : String → Node)
    (soup : Node) (url : String) (j : JobData)
    (hparser : ∀ s : String, s.toList.contains '<' = false →
      noElements (parseHtml s) = true)
    (hok : scrape_job parseHtml (some soup) url = ScrapeResult.ok j)
    (hdesc : j.description.toList.contains '<' = false) :
    j.responsibilities = (respNumbered j.description).take 8 := by
  have hshape : ∃ base : JobData, j = process_job_data parseHtml base := by
    unfold scrape_job at hok
    by_cases h1 : detect_job_site url = "linkedin"
    · simp only [h1, if_pos, if_true, reduceIte] at hok
      exact ⟨scrape_linkedin soup url, by
        cases hok
        rfl⟩
    · by_cases h2 : detect_job_site url = "indeed"
      · simp [h1, h2] at hok
      · by_cases h3 : detect_job_site url = "naukri"
        · simp only [h1, h2, h3, reduceIte] at hok
          exact ⟨scrape_naukri soup url, by
            cases hok
            rfl⟩
        · simp only [h1, h2, h3, reduceIte] at hok
          exact ⟨scrape_generic soup url, by
            cases hok
            rfl⟩
  obtain ⟨base, rfl⟩ := hshape
  show extract_responsibilities (parseHtml base.description) base.description =
    (respNumbered (process_job_data parseHtml base).description).take 8
  unfold extract_responsibilities
  rw [respFromLists_of_noElements _ (hparser base.description hdesc)]
  rw [List.nil_append]
  rfl

def soupNum : Node :=
  Node.tag "html" [] [Node.text "1. Deliver the goods on time every week."]

def urlGen : String := "https://example.com/x"

def jNum : JobData := {
  description := "1. Deliver the goods on time every week.",
  experience_required := "Not specified",
  responsibilities := ["1. Deliver the goods on time every week."],
  url := "https://example.com/x" }

/-- C10 witness: a concrete generic page whose description carries one
numbered sentence and no markup. -/
theorem C10_resp_from_reparsed_description_witness :
    scrape_job parseFlat (some soupNum) urlGen = ScrapeResult.ok jNum ∧
    jNum.description.toList.contains '<' = false ∧
    jNum.responsibilities = (respNumbered jNum.description).take 8 :=
  ⟨by decide, by decide,
   C10_resp_from_reparsed_description parseFlat soupNum urlGen jNum
     (fun _ _ => rfl) (by decide) (by decide)⟩
